import Mathlib

/-!
Verification of the Veridian workout tracker's data-consistency and
session-lifecycle core against its natural-language specification.

The development shallowly embeds the relevant TypeScript source:

* `Merge` models `mergeData` / `mergeByKey` from the Settings component
  (src/unnamed/part_001, lines 201-212): concatenate the local and remote
  lists, deduplicate by `id` through a JS `Map` (insertion order = first
  occurrence of a key, value = last occurrence, so remote entries
  overwrite local ones), then sort by timestamp descending with a stable
  sort.  Since the merge treats the three record lists uniformly through
  `any`-typed access to `id` and `timestamp`, records are embedded as an
  id, a parsed timestamp (`new Date(item.timestamp || 0).getTime()`,
  0 when the field is absent, e.g. routines) and an abstract payload
  `content` standing for all remaining fields.

* `App` models the session-lifecycle controller and profile store of
  src/src/App.tsx: `finishSession`, `startSession`, `addExerciseToSession`,
  `updateActiveSession`, `editSession`, the inactivity-timeout effect,
  `updateLocalProfile` and `handleOfflinePasswordReset`.  ISO timestamp
  strings are embedded as their epoch-millisecond values (the code always
  converts them with `new Date(...).getTime()` before computing);
  `Date.now()` is passed in explicitly as a `now` argument; the generated
  ids `Date.now().toString()` become `Nat.repr now`.  JS `Math.round` on
  `(now - start) / 60000` is `⌊(delta + 30000) / 60000⌋` on exact integers.
-/

namespace Merge

/-- A record as seen by `mergeByKey`: the merge only inspects `item.id` and
`item.timestamp`; every other field of a session / health entry / routine is
abstracted into `content`.  `timestamp` is the epoch-millisecond value of
`new Date(item.timestamp || 0).getTime()`; records lacking the field
(routines) carry 0. -/
structure Record where
  id : String
  timestamp : Nat
  content : Int
deriving DecidableEq, Repr

/-- The `AppData` aggregate of src/src/types.ts as `mergeData` sees it:
three record lists. -/
structure AppData where
  sessions : List Record
  healthStats : List Record
  routines : List Record
deriving DecidableEq, Repr

/-- One step of `new Map(combined.map(item => [item.id, item]))`: inserting a
key/value pair into a JS `Map` keeps the key at its first-insertion position
but overwrites the value; a fresh key is appended. -/
def insertEntry (m : List Record) (r : Record) : List Record :=
  if m.any (fun x => x.id == r.id) then
    m.map (fun x => if x.id == r.id then r else x)
  else
    m ++ [r]

/-- `Array.from(new Map(l.map(item => [item.id, item])).values())`:
deduplicate by id, last value wins, first-occurrence key order. -/
def dedupById (l : List Record) : List Record :=
  l.foldl insertEntry []

/-- `.sort((a, b) => new Date(b.timestamp || 0).getTime() - new Date(a.timestamp || 0).getTime())`:
a stable sort by timestamp descending (JS `Array.prototype.sort` is stable). -/
def sortByTimestampDesc (l : List Record) : List Record :=
  l.insertionSort (fun a b => b.timestamp ≤ a.timestamp)

/-- `mergeByKey` from src/unnamed/part_001 lines 202-206: concatenate local
then remote, deduplicate by id through the `Map` (so a remote entry
overwrites a local entry with the same id), and sort by timestamp
descending. -/
def mergeByKey (l r : List Record) : List Record :=
  sortByTimestampDesc (dedupById (l ++ r))

/-- `mergeData` from src/unnamed/part_001 lines 201-212, applied
independently to the three record lists. -/
def mergeData (l r : AppData) : AppData :=
  { sessions := mergeByKey l.sessions r.sessions
    healthStats := mergeByKey l.healthStats r.healthStats
    routines := mergeByKey l.routines r.routines }

/-- The id projection of a record list. -/
def ids (l : List Record) : List String :=
  l.map (fun r => r.id)

/-- The last record of `l` carrying id `i` (the value a JS `Map` ends up
holding for that key after inserting all of `l` in order). -/
def lastById (l : List Record) (i : String) : Option Record :=
  l.reverse.find? (fun x => x.id == i)


/-! ### Properties of the dedup-by-id map and of `mergeByKey` -/

theorem mem_ids {l : List Record} {x : String} :
    x ∈ ids l ↔ ∃ r ∈ l, r.id = x := by
  simp [ids]

theorem ids_insertEntry (m : List Record) (r : Record) :
    ids (insertEntry m r) = if r.id ∈ ids m then ids m else ids m ++ [r.id] := by
  unfold insertEntry
  by_cases h : r.id ∈ ids m
  · rw [if_pos, if_pos h]
    · unfold ids
      rw [List.map_map]
      apply List.map_congr_left
      intro a _
      by_cases ha : a.id = r.id <;> simp [ha]
    · rw [List.any_eq_true]
      rcases mem_ids.1 h with ⟨t, ht, hid⟩
      exact ⟨t, ht, by simp [hid]⟩
  · rw [if_neg, if_neg h]
    · simp [ids]
    · rw [List.any_eq_true]
      rintro ⟨t, ht, hid⟩
      exact h (mem_ids.2 ⟨t, ht, by simpa using hid⟩)

theorem nodup_ids_insertEntry {m : List Record} (r : Record)
    (h : (ids m).Nodup) : (ids (insertEntry m r)).Nodup := by
  rw [ids_insertEntry]
  by_cases hm : r.id ∈ ids m
  · simpa [hm] using h
  · rw [if_neg hm, List.nodup_append]
    exact ⟨h, List.nodup_singleton _, by simpa [List.disjoint_singleton] using hm⟩

theorem mem_ids_insertEntry {m : List Record} {r : Record} {x : String} :
    x ∈ ids (insertEntry m r) ↔ x ∈ ids m ∨ x = r.id := by
  rw [ids_insertEntry]
  by_cases hm : r.id ∈ ids m
  · simp only [if_pos hm]
    constructor
    · exact Or.inl
    · rintro (h | rfl) <;> [exact h; exact hm]
  · simp [if_neg hm]

theorem nodup_ids_foldl (l : List Record) :
    ∀ m : List Record, (ids m).Nodup → (ids (l.foldl insertEntry m)).Nodup := by
  induction l with
  | nil => intro m h; exact h
  | cons a l ih =>
      intro m h
      exact ih (insertEntry m a) (nodup_ids_insertEntry a h)

theorem mem_ids_foldl (l : List Record) :
    ∀ (m : List Record) (x : String),
      x ∈ ids (l.foldl insertEntry m) ↔ x ∈ ids m ∨ x ∈ ids l := by
  induction l with
  | nil => intro m x; simp [ids]
  | cons a l ih =>
      intro m x
      rw [List.foldl_cons, ih, mem_ids_insertEntry]
      constructor
      · rintro ((h | rfl) | h)
        · exact Or.inl h
        · exact Or.inr (mem_ids.2 ⟨a, List.mem_cons_self a l, rfl⟩)
        · exact Or.inr (mem_ids.2 (by rcases mem_ids.1 h with ⟨t, ht, rfl⟩; exact ⟨t, List.mem_cons_of_mem a ht, rfl⟩))
      · rintro (h | h)
        · exact Or.inl (Or.inl h)
        · rcases mem_ids.1 h with ⟨t, ht, rfl⟩
          rcases List.mem_cons.1 ht with rfl | ht'
          · exact Or.inl (Or.inr rfl)
          · exact Or.inr (mem_ids.2 ⟨t, ht', rfl⟩)

theorem mem_insertEntry {m : List Record} {a s : Record} :
    s ∈ insertEntry m a ↔ if s.id = a.id then s = a else s ∈ m := by
  unfold insertEntry
  by_cases hid : a.id ∈ ids m
  · rw [if_pos]
    · by_cases h : s.id = a.id
      · simp only [if_pos h, List.mem_map]
        constructor
        · rintro ⟨x, hx, hfx⟩
          by_cases hxa : x.id = a.id
          · rw [if_pos (by simpa using hxa)] at hfx; exact hfx.symm
          · rw [if_neg (by simpa using hxa)] at hfx
            exact absurd (hfx ▸ h) hxa
        · rintro rfl
          rcases mem_ids.1 hid with ⟨x, hx, hxa⟩
          exact ⟨x, hx, by rw [if_pos (by simpa using hxa)]⟩
      · simp only [if_neg h, List.mem_map]
        constructor
        · rintro ⟨x, hx, hfx⟩
          by_cases hxa : x.id = a.id
          · rw [if_pos (by simpa using hxa)] at hfx
            exact absurd (hfx ▸ rfl : s.id = a.id) h
          · rw [if_neg (by simpa using hxa)] at hfx
            exact hfx ▸ hx
        · intro hs
          refine ⟨s, hs, ?_⟩
          rw [if_neg (by simpa using h)]
    · rw [List.any_eq_true]
      rcases mem_ids.1 hid with ⟨t, ht, hta⟩
      exact ⟨t, ht, by simp [hta]⟩
  · rw [if_neg]
    · by_cases h : s.id = a.id
      · simp only [if_pos h, List.mem_append, List.mem_singleton]
        constructor
        · rintro (hs | rfl)
          · exact absurd (mem_ids.2 ⟨s, hs, h.symm ▸ rfl⟩) (h ▸ hid)
          · rfl
        · rintro rfl; exact Or.inr rfl
      · simp only [if_neg h, List.mem_append, List.mem_singleton]
        constructor
        · rintro (hs | rfl)
          · exact hs
          · exact absurd rfl h
        · exact Or.inl
    · rw [List.any_eq_true]
      rintro ⟨t, ht, hta⟩
      exact hid (mem_ids.2 ⟨t, ht, by simpa using hta⟩)

theorem mem_foldl_insertEntry {s : Record} (l : List Record) :
    ∀ m : List Record,
      s ∈ l.foldl insertEntry m ↔
        (lastById l s.id = some s ∨ (lastById l s.id = none ∧ s ∈ m)) := by
  induction l using List.reverseRecOn with
  | nil => intro m; simp [lastById]
  | append_singleton l a ih =>
      intro m
      rw [List.foldl_append, List.foldl_cons, List.foldl_nil, mem_insertEntry]
      by_cases h : s.id = a.id
      · have hl : lastById (l ++ [a]) s.id = some a := by
          unfold lastById
          rw [List.reverse_append]
          simp only [List.reverse_singleton, List.singleton_append]
          exact List.find?_cons_of_pos _ (by simp [h])
        rw [if_pos h, hl]
        constructor
        · rintro rfl; exact Or.inl rfl
        · rintro (ha | ⟨ha, _⟩)
          · exact (Option.some.injEq _ _ ▸ ha).symm
          · exact absurd ha (by simp)
      · have hl : lastById (l ++ [a]) s.id = lastById l s.id := by
          unfold lastById
          rw [List.reverse_append]
          simp only [List.reverse_singleton, List.singleton_append]
          exact List.find?_cons_of_neg _ (by simp [Ne.symm h])
        rw [if_neg h, hl, ih]

theorem eq_of_mem_of_id_eq {l : List Record} (h : (ids l).Nodup)
    {x y : Record} (hx : x ∈ l) (hy : y ∈ l) (hid : x.id = y.id) : x = y :=
  List.inj_on_of_nodup_map h hx hy hid

theorem foldl_insertEntry_subset {m : List Record} (hm : (ids m).Nodup) :
    ∀ l : List Record, (∀ x ∈ l, x ∈ m) → l.foldl insertEntry m = m := by
  intro l
  induction l with
  | nil => intro _; rfl
  | cons a l ih =>
      intro h
      have ha : a ∈ m := h a (List.mem_cons_self a l)
      have hins : insertEntry m a = m := by
        unfold insertEntry
        rw [if_pos]
        · rw [List.map_congr_left (g := fun x => x), List.map_id']
          intro x hx
          by_cases hxa : x.id = a.id
          · rw [if_pos (by simpa using hxa)]
            exact (eq_of_mem_of_id_eq hm hx ha hxa).symm
          · rw [if_neg (by simpa using hxa)]
        · rw [List.any_eq_true]
          exact ⟨a, ha, by simp⟩
      rw [List.foldl_cons, hins]
      exact ih (fun x hx => h x (List.mem_cons_of_mem a hx))

theorem foldl_insertEntry_disjoint :
    ∀ (l m : List Record), (ids l).Nodup → (∀ x ∈ ids l, x ∉ ids m) →
      l.foldl insertEntry m = m ++ l := by
  intro l
  induction l with
  | nil => intro m _ _; simp
  | cons a l ih =>
      intro m hnd hdisj
      have hins : insertEntry m a = m ++ [a] := by
        unfold insertEntry
        rw [if_neg]
        rw [List.any_eq_true]
        rintro ⟨t, ht, hta⟩
        exact hdisj a.id (by simp [ids]) (mem_ids.2 ⟨t, ht, by simpa using hta⟩)
      have hcons : (a.id :: ids l).Nodup := by simpa [ids] using hnd
      rw [List.foldl_cons, hins, ih (m ++ [a]) hcons.of_cons]
      · simp
      · intro x hx
        rw [show ids (m ++ [a]) = ids m ++ [a.id] from by simp [ids]]
        intro hmem
        rcases List.mem_append.1 hmem with hm | hsing
        · exact hdisj x (by simp [ids] at hx ⊢; exact Or.inr hx) hm
        · rcases List.mem_singleton.1 hsing with rfl
          have hcons : (a.id :: ids l).Nodup := by simpa [ids] using hnd
          exact (List.nodup_cons.1 hcons).1 hx

theorem dedupById_of_nodup {l : List Record} (h : (ids l).Nodup) :
    dedupById l = l := by
  unfold dedupById
  rw [foldl_insertEntry_disjoint l [] h (by simp [ids])]
  simp

theorem dedupById_self_append {a : List Record} (h : (ids a).Nodup) :
    dedupById (a ++ a) = a := by
  unfold dedupById
  rw [List.foldl_append]
  rw [show a.foldl insertEntry [] = a from dedupById_of_nodup h]
  exact foldl_insertEntry_subset h a (fun x hx => hx)

theorem nodup_ids_mergeByKey (l r : List Record) :
    (ids (mergeByKey l r)).Nodup := by
  have hp : List.Perm (ids (mergeByKey l r)) (ids (dedupById (l ++ r))) :=
    (List.perm_insertionSort _ _).map _
  exact hp.nodup_iff.2 (nodup_ids_foldl _ [] (by simp [ids]))

theorem mem_ids_mergeByKey (l r : List Record) (x : String) :
    x ∈ ids (mergeByKey l r) ↔ x ∈ ids l ∨ x ∈ ids r := by
  have hp : List.Perm (ids (mergeByKey l r)) (ids (dedupById (l ++ r))) :=
    (List.perm_insertionSort _ _).map _
  rw [hp.mem_iff]
  unfold dedupById
  rw [mem_ids_foldl]
  simp [ids]

theorem mergeByKey_self_perm {a : List Record} (h : (ids a).Nodup) :
    List.Perm (mergeByKey a a) a := by
  unfold mergeByKey sortByTimestampDesc
  rw [dedupById_self_append h]
  exact List.perm_insertionSort _ _

theorem lastById_eq_some_of_nodup {l : List Record} (h : (ids l).Nodup)
    {r : Record} (hr : r ∈ l) : lastById l r.id = some r := by
  unfold lastById
  cases heq : l.reverse.find? (fun x => x.id == r.id) with
  | none =>
      rw [List.find?_eq_none] at heq
      exact absurd (by simp) (heq r (List.mem_reverse.2 hr))
  | some t =>
      have ht : t ∈ l := List.mem_reverse.1 (List.mem_of_find?_eq_some heq)
      have hid : t.id = r.id := by simpa using List.find?_some heq
      rw [eq_of_mem_of_id_eq h ht hr hid]

theorem mergeByKey_remote_wins {l r : List Record} (hr : (ids r).Nodup)
    {rec : Record} (hmem : rec ∈ r) :
    rec ∈ mergeByKey l r ∧ ∀ s ∈ mergeByKey l r, s.id = rec.id → s = rec := by
  have hlast : lastById (l ++ r) rec.id = some rec := by
    unfold lastById
    rw [List.reverse_append, List.find?_append]
    rw [show r.reverse.find? (fun x => x.id == rec.id) = some rec from
      lastById_eq_some_of_nodup hr hmem]
    rfl
  have hmm : ∀ s : Record, s ∈ mergeByKey l r ↔ s ∈ dedupById (l ++ r) := by
    intro s
    unfold mergeByKey sortByTimestampDesc
    exact List.mem_insertionSort _
  constructor
  · rw [hmm]
    exact (mem_foldl_insertEntry (l ++ r) []).2 (Or.inl hlast)
  · intro s hs hid
    rw [hmm] at hs
    rcases (mem_foldl_insertEntry (l ++ r) []).1 hs with h1 | ⟨h1, _⟩
    · rw [hid, hlast] at h1
      exact (Option.some.injEq _ _ ▸ h1).symm
    · rw [hid, hlast] at h1
      cases h1

end Merge

namespace App

/-- The `'kg' | 'lbs'` union of src/src/types.ts. -/
inductive WeightUnit
  | kg
  | lbs
deriving DecidableEq, Repr

/-- `Exercise` from src/src/types.ts.  `weight` is a JS number that the
modelled operations only ever compare for (in)equality, so it is embedded
as an integer. -/
structure Exercise where
  id : String
  name : String
  sets : Int
  reps : Int
  weight : Int
  unit : WeightUnit
deriving DecidableEq, Repr

/-- `WorkoutSession` from src/src/types.ts; `timestamp` is the
epoch-millisecond value of the ISO string (the code always converts with
`new Date(...).getTime()` before computing with it). -/
structure WorkoutSession where
  id : String
  timestamp : Nat
  name : Option String
  warmup : Bool
  equipment : String
  notes : String
  exercises : List Exercise
  durationMinutes : Option Int
deriving DecidableEq, Repr

/-- `AppData` from src/src/types.ts.  The lifecycle operations modelled here
only ever touch `sessions`; the other two lists are carried along unchanged
(as abstract merge records). -/
structure AppData where
  sessions : List WorkoutSession
  healthStats : List Merge.Record
  routines : List Merge.Record
deriving DecidableEq, Repr

/-- The React state of the session-lifecycle controller in src/src/App.tsx:
`appData` (for the local-profile path, the active profile's data),
`activeSession`, `lastActivityTime` and `editingSessionId`. -/
structure AppState where
  appData : AppData
  activeSession : Option WorkoutSession
  lastActivityTime : Option Nat
  editingSessionId : Option String
deriving DecidableEq, Repr

/-- `Math.round((now - start) / 60000)` on exact integers:
JS `Math.round x` is `⌊x + 1/2⌋`, so this is `⌊(delta + 30000) / 60000⌋`. -/
def jsRoundMinutes (delta : Int) : Int :=
  Int.fdiv (delta + 30000) 60000

/-- Id projection of a session list. -/
def sessionIds (l : List WorkoutSession) : List String :=
  l.map (fun s => s.id)

/-- `finalSession` local of `finishSession` (src/src/App.tsx 225-229): a new
session (sentinel id) gets `durationMinutes = Math.round((Date.now() - start) / 60000)`. -/
def finalSessionOf (active : WorkoutSession) (now : Nat) : WorkoutSession :=
  if active.id == "active" then
    { active with
        durationMinutes := some (jsRoundMinutes ((now : Int) - (active.timestamp : Int))) }
  else active

/-- `newSessionId` local of `finishSession` (line 232): a new session gets
`Date.now().toString()` as permanent id, an edited one keeps its own. -/
def newSessionIdOf (finalSession : WorkoutSession) (now : Nat) : String :=
  if finalSession.id == "active" then Nat.repr now else finalSession.id

/-- `.sort((a,b) => new Date(b.timestamp).getTime() - new Date(a.timestamp).getTime())`
on the session list: stable sort, timestamp descending. -/
def sortSessionsByTimestampDesc (l : List WorkoutSession) : List WorkoutSession :=
  l.insertionSort (fun a b => b.timestamp ≤ a.timestamp)

/-- `updateState` local of `finishSession` (lines 236-240): drop every stored
session whose id equals the *pre-commit* id `finalSession.id`, append the
committed session, and sort by timestamp descending. -/
def updateState (currentData : AppData) (finalSession finalSessionWithId : WorkoutSession) :
    AppData :=
  { currentData with
      sessions :=
        sortSessionsByTimestampDesc
          (currentData.sessions.filter (fun s => !(s.id == finalSession.id)) ++
            [finalSessionWithId]) }

/-- `finishSession` (src/src/App.tsx 218-256), local-profile path: no-op when
idle; an active session with no exercises is discarded without touching the
dataset; otherwise the committed session (duration stamped and permanent id
assigned when new) upserts via `updateState` and the controller returns to
idle. -/
def finishSession (st : AppState) (now : Nat) : AppState :=
  match st.activeSession with
  | none => st
  | some active =>
      if active.exercises.length == 0 then
        { st with activeSession := none, editingSessionId := none }
      else
        let finalSession := finalSessionOf active now
        let finalSessionWithId := { finalSession with id := newSessionIdOf finalSession now }
        { st with
            appData := updateState st.appData finalSession finalSessionWithId
            activeSession := none
            editingSessionId := none }

/-- `startSession` (lines 345-350): any already-active session is finished
first, then the given session becomes active and the activity clock is set. -/
def startSession (st : AppState) (session : WorkoutSession) (now : Nat) : AppState :=
  let st1 := if st.activeSession.isSome then finishSession st now else st
  { st1 with activeSession := some session, lastActivityTime := some now }

/-- `Omit<Exercise, 'id'>`: the argument of `addExerciseToSession`. -/
structure ExerciseSpec where
  name : String
  sets : Int
  reps : Int
  weight : Int
  unit : WeightUnit
deriving DecidableEq, Repr

/-- The merge-key test of `addExerciseToSession` (line 371): an existing row
matches when `(name, weight, unit, reps)` agree exactly. -/
def tupleMatches (e : ExerciseSpec) (ex : Exercise) : Bool :=
  ex.name == e.name && ex.weight == e.weight && ex.unit == e.unit && ex.reps == e.reps

/-- `addExerciseToSession` (src/src/App.tsx 361-384).  When idle, adding an
exercise implicitly starts a session seeded with it (timestamp `now`, id
`"active"`, no name field in the literal); when active, the first row whose
`(name, weight, unit, reps)` tuple matches gets `sets += 1`, otherwise the
new row (with id `Date.now().toString()`) is appended.  Either way the
activity clock is reset. -/
def addExerciseToSession (st : AppState) (e : ExerciseSpec) (now : Nat) : AppState :=
  let newExercise : Exercise :=
    { id := Nat.repr now, name := e.name, sets := e.sets, reps := e.reps,
      weight := e.weight, unit := e.unit }
  match st.activeSession with
  | none =>
      let st1 := startSession st
        { id := "active", timestamp := now, name := none, warmup := false,
          equipment := "Bodyweight", notes := "", exercises := [newExercise],
          durationMinutes := none } now
      { st1 with lastActivityTime := some now }
  | some s =>
      let updatedExercises :=
        match s.exercises.findIdx? (tupleMatches e) with
        | some i => s.exercises.modify (fun ex => { ex with sets := ex.sets + 1 }) i
        | none => s.exercises ++ [newExercise]
      { st with activeSession := some { s with exercises := updatedExercises },
                lastActivityTime := some now }

/-- `Partial<WorkoutSession>`: the argument of `updateActiveSession`; `none`
means the key is absent from the partial object. -/
structure SessionUpdate where
  id : Option String
  timestamp : Option Nat
  name : Option (Option String)
  warmup : Option Bool
  equipment : Option String
  notes : Option String
  exercises : Option (List Exercise)
  durationMinutes : Option (Option Int)
deriving DecidableEq, Repr

/-- The shallow merge `{ ...prev, ...sessionUpdate }`. -/
def applySessionUpdate (s : WorkoutSession) (u : SessionUpdate) : WorkoutSession :=
  { id := u.id.getD s.id
    timestamp := u.timestamp.getD s.timestamp
    name := u.name.getD s.name
    warmup := u.warmup.getD s.warmup
    equipment := u.equipment.getD s.equipment
    notes := u.notes.getD s.notes
    exercises := u.exercises.getD s.exercises
    durationMinutes := u.durationMinutes.getD s.durationMinutes }

/-- A `Partial<WorkoutSession>` with every key absent. -/
def noSessionUpdate : SessionUpdate :=
  ⟨none, none, none, none, none, none, none, none⟩

/-- `updateActiveSession` (src/src/App.tsx 339-343): shallow-merge into the
active session and unconditionally reset the activity clock to `Date.now()`. -/
def updateActiveSession (st : AppState) (u : SessionUpdate) (now : Nat) : AppState :=
  match st.activeSession with
  | none => st
  | some s =>
      { st with activeSession := some (applySessionUpdate s u),
                lastActivityTime := some now }

/-- `editSession` (src/src/App.tsx 408-417).  Any active session is finished
first; the lookup reads the `appData` captured by the render closure, i.e.
the session list as it was *before* `finishSession`'s state updates land, so
the model searches `st.appData` rather than the finished state.  On a hit
the chosen session becomes active in editing mode and the activity clock is
cleared (`setLastActivityTime(null)`). -/
def editSession (st : AppState) (sessionId : String) (now : Nat) : AppState :=
  let st1 := finishSession st now
  match st.appData.sessions.find? (fun s => s.id == sessionId) with
  | some sessionToEdit =>
      { st1 with
          editingSessionId := some sessionId
          activeSession := some sessionToEdit
          lastActivityTime := none }
  | none => st1

/-- `cancelActiveSession` (lines 419-423): discard unconditionally. -/
def cancelActiveSession (st : AppState) : AppState :=
  { st with activeSession := none, editingSessionId := none }

/-- The guard of the inactivity-timeout effect (src/src/App.tsx 316-333): a
pending auto-commit timer exists iff a session is active, `lastActivityTime`
is truthy (non-null, non-zero), and `settings.sessionTimeout > 0`. -/
def timerArmed (st : AppState) (sessionTimeout : Nat) : Bool :=
  st.activeSession.isSome &&
    (match st.lastActivityTime with
     | some t => !(t == 0)
     | none => false) &&
    decide (0 < sessionTimeout)

/-- The timeout effect firing at wall-clock time `now`: when the timer is
armed and `sessionTimeout` minutes have elapsed since the last activity, the
effect invokes `finishSession` (lines 323-329); otherwise nothing happens. -/
def inactivityFire (st : AppState) (sessionTimeout now : Nat) : AppState :=
  match st.lastActivityTime with
  | some t =>
      if timerArmed st sessionTimeout && decide (t + sessionTimeout * 60000 ≤ now) then
        finishSession st now
      else st
  | none => st

/-- `DefaultSettings` from src/src/types.ts. -/
structure DefaultSettings where
  defaultWorkout : String
  defaultReps : Int
  defaultWeight : Int
  defaultUnit : WeightUnit
  sessionTimeout : Nat
deriving DecidableEq, Repr

/-- `UserProfile` from src/src/types.ts. -/
structure UserProfile where
  id : String
  name : String
  passwordHash : String
  securityCodeHash : Option String
  appData : AppData
  settings : DefaultSettings
deriving DecidableEq, Repr

/-- JS `a || b` on an optional string: `null` and the empty string are
falsy. -/
def orFalsy (a b : Option String) : Option String :=
  match a with
  | some s => if s == "" then b else some s
  | none => b

/-- `updateLocalProfile` (src/src/App.tsx 203-211):
`targetId = profileIdToUpdate || activeLocalProfileId`; if `targetId` is
falsy nothing happens, otherwise the updater is mapped over every profile
whose id equals `targetId`. -/
def updateLocalProfile (profiles : List UserProfile) (activeLocalProfileId : Option String)
    (updater : UserProfile → UserProfile) (profileIdToUpdate : Option String) :
    List UserProfile :=
  match orFalsy profileIdToUpdate activeLocalProfileId with
  | none => profiles
  | some targetId =>
      if targetId == "" then profiles
      else profiles.map (fun p => if p.id == targetId then updater p else p)

/-- JS `String.prototype.toLowerCase()` as used for case-insensitive
username comparison: per-character lowercasing (`String.toLower` itself is
defined by well-founded recursion on byte positions and does not reduce in
the kernel; this structural form computes the same string). -/
def toLowerCase (s : String) : String :=
  String.mk (s.data.map Char.toLower)

/-- `verifyPassword` (src/src/App.tsx 50-53) relative to an arbitrary opaque
digest function (the spec treats password hashing as an opaque one-way
digest; the source uses SHA-256). -/
def verifyPassword (hash : String → String) (password storedHash : String) : Bool :=
  hash password == storedHash

/-- `handleOfflinePasswordReset` (src/src/App.tsx 572-590): look up the
profile by case-insensitive name; fail if absent or without a (truthy)
stored recovery-code digest; verify the supplied code against the digest;
on success replace that profile's password digest via `updateLocalProfile`
and return true.  Returns the flag together with the resulting profile
list. -/
def handleOfflinePasswordReset (hash : String → String) (profiles : List UserProfile)
    (activeLocalProfileId : Option String) (username securityCode newPassword : String) :
    Bool × List UserProfile :=
  match profiles.find? (fun p => toLowerCase p.name == toLowerCase username) with
  | none => (false, profiles)
  | some profile =>
      match profile.securityCodeHash with
      | none => (false, profiles)
      | some sch =>
          if sch == "" then (false, profiles)
          else if verifyPassword hash securityCode sch then
            (true,
             updateLocalProfile profiles activeLocalProfileId
               (fun p => { p with passwordHash := hash newPassword }) (some profile.id))
          else (false, profiles)

end App

/-! ### Decimal strings generated by `Date.now().toString()` -/

theorem digitChar_isDigit {m : Nat} (h : m < 10) : (Nat.digitChar m).isDigit = true := by
  interval_cases m <;> decide

theorem toDigitsCore_isDigit :
    ∀ (fuel n : Nat) (ds : List Char), (∀ c ∈ ds, c.isDigit = true) →
      ∀ c ∈ Nat.toDigitsCore 10 fuel n ds, c.isDigit = true := by
  intro fuel
  induction fuel with
  | zero => intro n ds h c hc; exact h c hc
  | succ fuel ih =>
      intro n ds h c hc
      simp only [Nat.toDigitsCore] at hc
      have hd : ∀ c' ∈ Nat.digitChar (n % 10) :: ds, c'.isDigit = true := by
        intro c' hc'
        rcases List.mem_cons.1 hc' with rfl | hmem
        · exact digitChar_isDigit (Nat.mod_lt n (by norm_num))
        · exact h c' hmem
      by_cases hn : n / 10 = 0
      · rw [if_pos hn] at hc
        exact hd c hc
      · rw [if_neg hn] at hc
        exact ih (n / 10) _ hd c hc

/-- The decimal string `Date.now().toString()` is never the sentinel
`"active"`: all its characters are digits. -/
theorem natRepr_ne_active (n : Nat) : Nat.repr n ≠ ("active") := by
  intro h
  have hdata : Nat.toDigits 10 n = ("active").data := congrArg String.data h
  have hmem : ('a' : Char) ∈ Nat.toDigits 10 n := by
    rw [hdata]; decide
  have hdig : ('a' : Char).isDigit = true := by
    rw [Nat.toDigits] at hmem
    exact toDigitsCore_isDigit (n + 1) n [] (by intro c hc; cases hc) _ hmem
  cases hdig

/-! ## The claims -/

/-- C1: for every pair of Datasets A and B whose three record lists each
have unique ids within one side, each list of `mergeData A B` contains every
id present in the corresponding lists of A or B exactly once: the merged id
list is duplicate-free and an id belongs to it iff it occurs on at least one
side. -/
theorem C1_merge_ids_exactly_once (A B : Merge.AppData)
    (hA1 : (Merge.ids A.sessions).Nodup) (hA2 : (Merge.ids A.healthStats).Nodup)
    (hA3 : (Merge.ids A.routines).Nodup) (hB1 : (Merge.ids B.sessions).Nodup)
    (hB2 : (Merge.ids B.healthStats).Nodup) (hB3 : (Merge.ids B.routines).Nodup) :
    ((Merge.ids (Merge.mergeData A B).sessions).Nodup ∧
      ∀ x, x ∈ Merge.ids (Merge.mergeData A B).sessions ↔
        x ∈ Merge.ids A.sessions ∨ x ∈ Merge.ids B.sessions) ∧
    ((Merge.ids (Merge.mergeData A B).healthStats).Nodup ∧
      ∀ x, x ∈ Merge.ids (Merge.mergeData A B).healthStats ↔
        x ∈ Merge.ids A.healthStats ∨ x ∈ Merge.ids B.healthStats) ∧
    ((Merge.ids (Merge.mergeData A B).routines).Nodup ∧
      ∀ x, x ∈ Merge.ids (Merge.mergeData A B).routines ↔
        x ∈ Merge.ids A.routines ∨ x ∈ Merge.ids B.routines) :=
  ⟨⟨Merge.nodup_ids_mergeByKey _ _, fun x => Merge.mem_ids_mergeByKey _ _ x⟩,
   ⟨Merge.nodup_ids_mergeByKey _ _, fun x => Merge.mem_ids_mergeByKey _ _ x⟩,
   ⟨Merge.nodup_ids_mergeByKey _ _, fun x => Merge.mem_ids_mergeByKey _ _ x⟩⟩

/-- Sample datasets used to instantiate the merge claims. -/
def sampleA : Merge.AppData :=
  { sessions := [{ id := "1", timestamp := 5, content := 10 }, { id := "2", timestamp := 9, content := 11 }]
    healthStats := [{ id := "h1", timestamp := 3, content := 7 }]
    routines := [{ id := "r1", timestamp := 0, content := 1 }] }

/-- Second sample dataset (collides with `sampleA` on session id "1"). -/
def sampleB : Merge.AppData :=
  { sessions := [{ id := "1", timestamp := 7, content := 20 }, { id := "3", timestamp := 2, content := 12 }]
    healthStats := []
    routines := [{ id := "r2", timestamp := 0, content := 2 }] }

theorem C1_merge_ids_exactly_once_witness :
    (Merge.ids (Merge.mergeData sampleA sampleB).sessions).Nodup ∧
      (("1") ∈ Merge.ids (Merge.mergeData sampleA sampleB).sessions ↔
        ("1") ∈ Merge.ids sampleA.sessions ∨ ("1") ∈ Merge.ids sampleB.sessions) := by
  have h := C1_merge_ids_exactly_once sampleA sampleB (by decide) (by decide)
    (by decide) (by decide) (by decide) (by decide)
  exact ⟨h.1.1, h.1.2 ("1")⟩

/-- C2: for Datasets A (local) and B (remote), whenever an id occurs in the
same record list on both sides, the surviving record of `mergeData A B` for
that id is exactly B's record: remote wins on every id collision.  (B's
lists are assumed duplicate-free, the entity invariant, so that "B's record
for that id" is well defined.) -/
theorem C2_remote_wins_on_collision (A B : Merge.AppData) (r : Merge.Record)
    (hB1 : (Merge.ids B.sessions).Nodup) (hB2 : (Merge.ids B.healthStats).Nodup)
    (hB3 : (Merge.ids B.routines).Nodup) :
    (r ∈ B.sessions → r.id ∈ Merge.ids A.sessions →
      r ∈ (Merge.mergeData A B).sessions ∧
        ∀ s ∈ (Merge.mergeData A B).sessions, s.id = r.id → s = r) ∧
    (r ∈ B.healthStats → r.id ∈ Merge.ids A.healthStats →
      r ∈ (Merge.mergeData A B).healthStats ∧
        ∀ s ∈ (Merge.mergeData A B).healthStats, s.id = r.id → s = r) ∧
    (r ∈ B.routines → r.id ∈ Merge.ids A.routines →
      r ∈ (Merge.mergeData A B).routines ∧
        ∀ s ∈ (Merge.mergeData A B).routines, s.id = r.id → s = r) :=
  ⟨fun hmem _ => Merge.mergeByKey_remote_wins hB1 hmem,
   fun hmem _ => Merge.mergeByKey_remote_wins hB2 hmem,
   fun hmem _ => Merge.mergeByKey_remote_wins hB3 hmem⟩

theorem C2_remote_wins_on_collision_witness :
    ({ id := "1", timestamp := 7, content := 20 } : Merge.Record) ∈
        (Merge.mergeData sampleA sampleB).sessions ∧
      ∀ s ∈ (Merge.mergeData sampleA sampleB).sessions,
        s.id = ({ id := "1", timestamp := 7, content := 20 } : Merge.Record).id →
          s = { id := "1", timestamp := 7, content := 20 } := by
  have h := C2_remote_wins_on_collision sampleA sampleB
    { id := "1", timestamp := 7, content := 20 } (by decide) (by decide) (by decide)
  exact h.1 (by decide) (by decide)

/-- C3 counterexample: `mergeData` is *not* commutative at the level of
record sets.  With a single colliding session id "1" carried with different
content on the two sides, `mergeData a b` keeps b's copy while
`mergeData b a` keeps a's copy, so the two merges do not contain the same
set of surviving records. -/
theorem C3_cex_record_sets_differ :
    ({ id := "1", timestamp := 6, content := 20 } : Merge.Record) ∈
        (Merge.mergeData
          { sessions := [{ id := "1", timestamp := 5, content := 10 }], healthStats := [], routines := [] }
          { sessions := [{ id := "1", timestamp := 6, content := 20 }], healthStats := [], routines := [] }).sessions ∧
    ({ id := "1", timestamp := 6, content := 20 } : Merge.Record) ∉
        (Merge.mergeData
          { sessions := [{ id := "1", timestamp := 6, content := 20 }], healthStats := [], routines := [] }
          { sessions := [{ id := "1", timestamp := 5, content := 10 }], healthStats := [], routines := [] }).sessions := by
  decide

/-- C3 (amended): `mergeData a b` and `mergeData b a` contain the same set
of surviving record *ids* in each of the three lists (the surviving content
for a collided id differs: each direction keeps its own remote side's
copy). -/
theorem C3_amended_commutative_on_ids (a b : Merge.AppData) :
    (∀ x, x ∈ Merge.ids (Merge.mergeData a b).sessions ↔
        x ∈ Merge.ids (Merge.mergeData b a).sessions) ∧
    (∀ x, x ∈ Merge.ids (Merge.mergeData a b).healthStats ↔
        x ∈ Merge.ids (Merge.mergeData b a).healthStats) ∧
    (∀ x, x ∈ Merge.ids (Merge.mergeData a b).routines ↔
        x ∈ Merge.ids (Merge.mergeData b a).routines) := by
  refine ⟨fun x => ?_, fun x => ?_, fun x => ?_⟩ <;>
    rw [show (Merge.mergeData a b) = Merge.mergeData a b from rfl] <;>
    simp only [Merge.mergeData] <;>
    rw [Merge.mem_ids_mergeByKey, Merge.mem_ids_mergeByKey, or_comm]

/-- C4: merging a Dataset (whose lists are duplicate-free, the entity
invariant) with itself returns the Dataset itself up to the deterministic
timestamp sort applied after the merge: each merged list is a permutation
of the original, hence equal as a set of ids with their (trivially
remote-wins) content. -/
theorem C4_merge_idempotent (A : Merge.AppData)
    (h1 : (Merge.ids A.sessions).Nodup) (h2 : (Merge.ids A.healthStats).Nodup)
    (h3 : (Merge.ids A.routines).Nodup) :
    List.Perm (Merge.mergeData A A).sessions A.sessions ∧
    List.Perm (Merge.mergeData A A).healthStats A.healthStats ∧
    List.Perm (Merge.mergeData A A).routines A.routines :=
  ⟨Merge.mergeByKey_self_perm h1, Merge.mergeByKey_self_perm h2,
   Merge.mergeByKey_self_perm h3⟩

theorem C4_merge_idempotent_witness :
    List.Perm (Merge.mergeData sampleA sampleA).sessions sampleA.sessions ∧
    List.Perm (Merge.mergeData sampleA sampleA).routines sampleA.routines := by
  have h := C4_merge_idempotent sampleA (by decide) (by decide) (by decide)
  exact ⟨h.1, h.2.2⟩

namespace App

theorem mem_sessionIds {l : List WorkoutSession} {x : String} :
    x ∈ sessionIds l ↔ ∃ s ∈ l, s.id = x := by
  simp [sessionIds]

theorem finalSessionOf_id (a : WorkoutSession) (now : Nat) :
    (finalSessionOf a now).id = a.id := by
  unfold finalSessionOf
  split <;> rfl

theorem finishSession_eq_of_nonempty {st : AppState} {a : WorkoutSession} (now : Nat)
    (hactive : st.activeSession = some a) (hex : a.exercises ≠ []) :
    finishSession st now =
      { st with
          appData := updateState st.appData (finalSessionOf a now)
            { finalSessionOf a now with id := newSessionIdOf (finalSessionOf a now) now }
          activeSession := none
          editingSessionId := none } := by
  unfold finishSession
  rw [hactive]
  have hlen : (a.exercises.length == 0) = false := by
    rw [beq_eq_false_iff_ne]
    simpa [List.length_eq_zero] using hex
  simp only [hlen, Bool.false_eq_true, if_false]

theorem finishSession_sessions_of_nonempty {st : AppState} {a : WorkoutSession} (now : Nat)
    (hactive : st.activeSession = some a) (hex : a.exercises ≠ []) :
    (finishSession st now).appData.sessions =
      sortSessionsByTimestampDesc
        (st.appData.sessions.filter (fun s => !(s.id == a.id)) ++
          [{ finalSessionOf a now with id := newSessionIdOf (finalSessionOf a now) now }]) := by
  rw [finishSession_eq_of_nonempty now hactive hex]
  simp only [updateState, finalSessionOf_id]

end App

namespace App

/-- Every session surviving the not-this-id filter has a different id. -/
theorem id_ne_of_mem_filter {l : List WorkoutSession} {cid : String} {s : WorkoutSession}
    (h : s ∈ l.filter (fun t => !(t.id == cid))) : s.id ≠ cid := by
  have := List.of_mem_filter h
  simpa using this

theorem nodup_filter_append_committed {l : List WorkoutSession} {c : WorkoutSession}
    {cid : String} (hc : c.id = cid) (hnodup : (sessionIds l).Nodup) :
    (sessionIds (l.filter (fun t => !(t.id == cid)) ++ [c])).Nodup := by
  have hsub : List.Sublist (sessionIds (l.filter (fun t => !(t.id == cid))))
      (sessionIds l) := (List.filter_sublist l).map _
  have hnd : (sessionIds (l.filter (fun t => !(t.id == cid)))).Nodup :=
    hnodup.sublist hsub
  rw [show sessionIds (l.filter (fun t => !(t.id == cid)) ++ [c]) =
      sessionIds (l.filter (fun t => !(t.id == cid))) ++ [c.id] from by simp [sessionIds]]
  rw [List.nodup_append, hc]
  refine ⟨hnd, List.nodup_singleton _, ?_⟩
  rw [List.disjoint_singleton]
  intro hmem
  rcases mem_sessionIds.1 hmem with ⟨s, hs, hid⟩
  exact id_ne_of_mem_filter hs hid

theorem sessionIds_nodup_of_perm {l₁ l₂ : List WorkoutSession}
    (h : List.Perm l₁ l₂) (h₂ : (sessionIds l₂).Nodup) : (sessionIds l₁).Nodup := by
  unfold sessionIds at h₂ ⊢
  exact ((h.map _).nodup_iff).2 h₂

theorem length_filter_sortSessions (p : WorkoutSession → Bool) (l : List WorkoutSession) :
    ((sortSessionsByTimestampDesc l).filter p).length = (l.filter p).length := by
  unfold sortSessionsByTimestampDesc
  exact ((List.perm_insertionSort _ _).filter _).length_eq

end App

/-- C5 (amended): committing an Active session with at least one exercise
removes every stored session whose id equals the *committed* id and appends
the committed session (for Active(editing) this is exactly replace-by-id;
for Active(new) the sentinel matches nothing, so it is a plain append), and
the resulting session list still has unique ids — *provided* that, for an
Active(new) commit, the freshly generated id `Nat.repr now` does not already
occur in the list (the code filters by the pre-commit id, so it never
replaces a colliding stored session; see the counterexample).  The stored
list is assumed free of the never-persisted sentinel id. -/
theorem C5_amended_upsert_preserves_unique_ids
    (st : App.AppState) (a : App.WorkoutSession) (now : Nat)
    (hactive : st.activeSession = some a)
    (hex : a.exercises ≠ [])
    (hnodup : (App.sessionIds st.appData.sessions).Nodup)
    (hsent : ("active") ∉ App.sessionIds st.appData.sessions)
    (hfresh : a.id = ("active") → Nat.repr now ∉ App.sessionIds st.appData.sessions) :
    List.Perm (App.finishSession st now).appData.sessions
      (st.appData.sessions.filter
          (fun s => !(s.id == App.newSessionIdOf (App.finalSessionOf a now) now)) ++
        [{ App.finalSessionOf a now with
            id := App.newSessionIdOf (App.finalSessionOf a now) now }]) ∧
    (App.sessionIds (App.finishSession st now).appData.sessions).Nodup := by
  have hsessions := App.finishSession_sessions_of_nonempty now hactive hex
  have hcid : App.newSessionIdOf (App.finalSessionOf a now) now =
      if a.id = ("active") then Nat.repr now else a.id := by
    unfold App.newSessionIdOf
    rw [App.finalSessionOf_id]
    by_cases h : a.id = ("active")
    · rw [if_pos h, if_pos (by simpa using h)]
    · rw [if_neg h, if_neg (by simpa using h)]
  have hfilters : st.appData.sessions.filter (fun s => !(s.id == a.id)) =
      st.appData.sessions.filter
        (fun s => !(s.id == App.newSessionIdOf (App.finalSessionOf a now) now)) := by
    by_cases h : a.id = ("active")
    · rw [hcid, if_pos h]
      rw [List.filter_eq_self.2, List.filter_eq_self.2]
      · intro s hs
        simp only [Bool.not_eq_true']
        rw [beq_eq_false_iff_ne]
        intro hsid
        exact (hfresh h) (App.mem_sessionIds.2 ⟨s, hs, hsid⟩)
      · intro s hs
        simp only [Bool.not_eq_true']
        rw [beq_eq_false_iff_ne]
        intro hsid
        exact hsent (App.mem_sessionIds.2 ⟨s, hs, h ▸ hsid⟩)
    · rw [hcid, if_neg h]
  constructor
  · rw [hsessions, hfilters]
    exact List.perm_insertionSort _ _
  · rw [hsessions]
    refine App.sessionIds_nodup_of_perm (List.perm_insertionSort _ _) ?_
    rw [hfilters]
    exact App.nodup_filter_append_committed rfl hnodup

/-- A one-set push-ups row used by the lifecycle examples. -/
def sampleExercise : App.Exercise :=
  { id := "e1", name := "Push-ups", sets := 1, reps := 10, weight := 0, unit := App.WeightUnit.kg }

/-- A stored session whose id "100" will collide with the id generated by a
commit at `now = 100`. -/
def storedSession100 : App.WorkoutSession :=
  { id := "100", timestamp := 50, name := none, warmup := false, equipment := "Bodyweight",
    notes := "", exercises := [sampleExercise], durationMinutes := some 5 }

/-- An Active(new) session with one exercise, started at time 40. -/
def activeNew40 : App.WorkoutSession :=
  { id := "active", timestamp := 40, name := none, warmup := false, equipment := "Bodyweight",
    notes := "", exercises := [sampleExercise], durationMinutes := none }

/-- State for the C5 counterexample: unique stored ids, an Active(new)
session with one exercise. -/
def c5State : App.AppState :=
  { appData := { sessions := [storedSession100], healthStats := [], routines := [] }
    activeSession := some activeNew40
    lastActivityTime := some 40
    editingSessionId := none }

/-- C5 counterexample: the session list has unique ids ("100") and the
Active session has one exercise, yet committing at `now = 100` appends a
session with the freshly generated id `"100"` without replacing the stored
one — the resulting session list has a duplicate id. -/
theorem C5_cex_duplicate_ids :
    c5State.activeSession = some activeNew40 ∧
    activeNew40.exercises ≠ [] ∧
    (App.sessionIds c5State.appData.sessions).Nodup ∧
    ¬ (App.sessionIds (App.finishSession c5State 100).appData.sessions).Nodup := by
  decide

/-- State for the C5 witness: stored id "7" does not collide with the id
generated at `now = 100`. -/
def c5WitnessState : App.AppState :=
  { appData :=
      { sessions := [{ id := "7", timestamp := 50, name := none, warmup := false,
                       equipment := "Bodyweight", notes := "", exercises := [sampleExercise],
                       durationMinutes := some 5 }]
        healthStats := []
        routines := [] }
    activeSession := some activeNew40
    lastActivityTime := some 40
    editingSessionId := none }

theorem C5_amended_witness :
    List.Perm (App.finishSession c5WitnessState 100).appData.sessions
      (c5WitnessState.appData.sessions.filter
          (fun s => !(s.id == App.newSessionIdOf (App.finalSessionOf activeNew40 100) 100)) ++
        [{ App.finalSessionOf activeNew40 100 with
            id := App.newSessionIdOf (App.finalSessionOf activeNew40 100) 100 }]) ∧
    (App.sessionIds (App.finishSession c5WitnessState 100).appData.sessions).Nodup :=
  C5_amended_upsert_preserves_unique_ids c5WitnessState activeNew40 100 rfl
    (by decide) (by decide) (by decide) (fun _ => by decide)

/-- State for the C6 counterexample: the Active(new) session carries a
future start timestamp and the stored list contains the id the commit will
generate. -/
def c6State : App.AppState :=
  { appData := { sessions := [storedSession100], healthStats := [], routines := [] }
    activeSession := some
      { id := "active", timestamp := 1000000000000, name := none, warmup := false,
        equipment := "Bodyweight", notes := "", exercises := [sampleExercise],
        durationMinutes := none }
    lastActivityTime := some 40
    editingSessionId := none }

/-- C6 counterexample: committing this Active(new) session (one exercise,
sentinel id) at `now = 100` stamps a *negative* `durationMinutes` (the
formula `round((now - start)/60000)` is negative for a future start) and
assigns the id `"100"`, which is already used by another stored session —
after the commit two sessions share the id "100". -/
theorem C6_cex_negative_duration_and_id_reuse :
    (∃ s ∈ (App.finishSession c6State 100).appData.sessions,
      ∃ d, s.durationMinutes = some d ∧ d < 0) ∧
    ((App.finishSession c6State 100).appData.sessions.filter
        (fun s => s.id == ("100"))).length = 2 := by
  decide

/-- C6 (amended): committing an Active(new) session (sentinel id, at least
one exercise) stamps `durationMinutes = round((now - start)/60000)` and
assigns the non-sentinel id `Nat.repr now`; the stamped duration is ≥ 0
whenever the commit happens no earlier than the session's start, and the
new id is used by exactly one session in the resulting list provided it did
not already occur in the stored list (the code does not guard against such
a collision; see the counterexample). -/
theorem C6_amended_commit_stamps_duration_and_fresh_id
    (st : App.AppState) (a : App.WorkoutSession) (now : Nat)
    (hactive : st.activeSession = some a)
    (hid : a.id = ("active"))
    (hex : a.exercises ≠ [])
    (hstart : a.timestamp ≤ now)
    (hfresh : Nat.repr now ∉ App.sessionIds st.appData.sessions) :
    ({ a with
          id := Nat.repr now
          durationMinutes := some (App.jsRoundMinutes ((now : Int) - (a.timestamp : Int))) }
      ∈ (App.finishSession st now).appData.sessions) ∧
    0 ≤ App.jsRoundMinutes ((now : Int) - (a.timestamp : Int)) ∧
    Nat.repr now ≠ ("active") ∧
    ((App.finishSession st now).appData.sessions.filter
        (fun s => s.id == Nat.repr now)).length = 1 := by
  have hsessions := App.finishSession_sessions_of_nonempty now hactive hex
  have hfinal : App.finalSessionOf a now =
      { a with
          durationMinutes :=
              some (App.jsRoundMinutes ((now : Int) - (a.timestamp : Int))) } := by
    unfold App.finalSessionOf
    rw [if_pos (by simpa using hid)]
  have hnewid : App.newSessionIdOf (App.finalSessionOf a now) now = Nat.repr now := by
    unfold App.newSessionIdOf
    rw [App.finalSessionOf_id, if_pos (by simpa using hid)]
  refine ⟨?_, ?_, natRepr_ne_active now, ?_⟩
  · rw [hsessions]
    unfold App.sortSessionsByTimestampDesc
    rw [List.mem_insertionSort]
    refine List.mem_append_right _ (List.mem_singleton.2 ?_)
    rw [hnewid, hfinal]
  · unfold App.jsRoundMinutes
    apply Int.fdiv_nonneg
    · omega
    · norm_num
  · rw [hsessions, App.length_filter_sortSessions, List.filter_append]
    have h1 : (st.appData.sessions.filter (fun s => !(s.id == a.id))).filter
        (fun s => s.id == Nat.repr now) = [] := by
      rw [List.filter_eq_nil_iff]
      intro s hs hsid
      exact hfresh (App.mem_sessionIds.2
        ⟨s, List.mem_of_mem_filter hs, by simpa using hsid⟩)
    have h2 : (List.filter (fun s => s.id == Nat.repr now)
        [({ App.finalSessionOf a now with
              id := App.newSessionIdOf (App.finalSessionOf a now) now } :
          App.WorkoutSession)]).length = 1 := by
      rw [List.filter_singleton]
      have hcond : (({ App.finalSessionOf a now with
          id := App.newSessionIdOf (App.finalSessionOf a now) now } :
            App.WorkoutSession).id == Nat.repr now) = true := by
        show (App.newSessionIdOf (App.finalSessionOf a now) now == Nat.repr now) = true
        rw [hnewid]
        exact beq_self_eq_true _
      rw [hcond]
      rfl
    rw [h1]
    simpa using h2

theorem C6_amended_witness :
    ({ activeNew40 with
          id := Nat.repr 100
          durationMinutes := some (App.jsRoundMinutes ((100 : Int) - ((40 : Nat) : Int))) }
      ∈ (App.finishSession c5WitnessState 100).appData.sessions) ∧
    0 ≤ App.jsRoundMinutes ((100 : Int) - ((40 : Nat) : Int)) ∧
    Nat.repr 100 ≠ ("active") ∧
    ((App.finishSession c5WitnessState 100).appData.sessions.filter
        (fun s => s.id == Nat.repr 100)).length = 1 :=
  C6_amended_commit_stamps_duration_and_fresh_id c5WitnessState activeNew40 100 rfl rfl
    (by decide) (by decide) (by decide)

namespace App

/-- `(l ++ [y]).findIdx? p` when nothing in `l` matches: the appended
element is found at index `l.length` iff it matches. -/
theorem findIdx?_append_singleton_of_none {l : List Exercise} {p : Exercise → Bool}
    (h : ∀ x ∈ l, p x = false) (y : Exercise) :
    (l ++ [y]).findIdx? p = if p y then some l.length else none := by
  induction l with
  | nil => simp [List.findIdx?_cons]
  | cons a l ih =>
      have ha : p a = false := h a (List.mem_cons_self a l)
      have ih' := ih (fun x hx => h x (List.mem_cons_of_mem a hx))
      simp only [List.cons_append, List.findIdx?_cons, ha, Bool.false_eq_true, if_false,
        List.findIdx?_start_succ, ih']
      by_cases hy : p y = true
      · simp [hy, List.length_cons]
      · simp [hy]

/-- Modifying the element at index `l.length` of `l ++ [y]` rewrites `y`. -/
theorem modify_append_singleton (f : Exercise → Exercise) (l : List Exercise) (y : Exercise) :
    (l ++ [y]).modify f l.length = l ++ [f y] := by
  induction l with
  | nil => simp
  | cons a l ih => simp [List.modify_succ_cons, ih]

/-- The row built from a spec matches the spec's tuple. -/
theorem tupleMatches_mkRow (e : ExerciseSpec) (i : String) (k : Int) :
    tupleMatches e
      { id := i, name := e.name, sets := k, reps := e.reps,
        weight := e.weight, unit := e.unit } = true := by
  simp [tupleMatches]

theorem addExerciseToSession_no_match {st : AppState} {s : WorkoutSession}
    {e : ExerciseSpec} (now : Nat) (hactive : st.activeSession = some s)
    (hfind : s.exercises.findIdx? (tupleMatches e) = none) :
    addExerciseToSession st e now =
      { st with
          activeSession := some
            { s with
                exercises := s.exercises ++
                  [{ id := Nat.repr now, name := e.name, sets := e.sets,
                     reps := e.reps, weight := e.weight, unit := e.unit }] }
          lastActivityTime := some now } := by
  unfold addExerciseToSession
  rw [hactive]
  simp only [hfind]

theorem addExerciseToSession_with_match {st : AppState} {s : WorkoutSession}
    {e : ExerciseSpec} {i : Nat} (now : Nat) (hactive : st.activeSession = some s)
    (hfind : s.exercises.findIdx? (tupleMatches e) = some i) :
    addExerciseToSession st e now =
      { st with
          activeSession := some
            { s with
                exercises :=
                  s.exercises.modify (fun ex => { ex with sets := ex.sets + 1 }) i }
          lastActivityTime := some now } := by
  unfold addExerciseToSession
  rw [hactive]
  simp only [hfind]

end App

/-- C7: on an Active session with no row matching the `(name, weight, unit,
reps)` tuple of `e`, two `addExercise` calls with that same tuple produce a
single row for the tuple, not two: the first call appends the row (with the
freshly generated id `Nat.repr n1`) carrying the one set the logger submits
per add (`e.sets = 1`, the only value WorkoutLogger ever sends), the second
call increments that row's `sets` to 2 in place, and exactly one row of the
final exercise list matches the tuple. -/
theorem C7_add_exercise_merges_rows
    (st : App.AppState) (s : App.WorkoutSession) (e : App.ExerciseSpec) (n1 n2 : Nat)
    (hactive : st.activeSession = some s)
    (hnomatch : ∀ ex ∈ s.exercises, App.tupleMatches e ex = false)
    (hsets : e.sets = 1) :
    (App.addExerciseToSession st e n1).activeSession =
      some { s with
              exercises := s.exercises ++
                [{ id := Nat.repr n1, name := e.name, sets := 1, reps := e.reps,
                   weight := e.weight, unit := e.unit }] } ∧
    (App.addExerciseToSession (App.addExerciseToSession st e n1) e n2).activeSession =
      some { s with
              exercises := s.exercises ++
                [{ id := Nat.repr n1, name := e.name, sets := 2, reps := e.reps,
                   weight := e.weight, unit := e.unit }] } ∧
    ((s.exercises ++
        [({ id := Nat.repr n1, name := e.name, sets := 2, reps := e.reps,
            weight := e.weight, unit := e.unit } : App.Exercise)]).filter
      (App.tupleMatches e)).length = 1 := by
  have hfind : s.exercises.findIdx? (App.tupleMatches e) = none :=
    List.findIdx?_eq_none_iff.2 hnomatch
  have h1 := App.addExerciseToSession_no_match n1 hactive hfind
  rw [hsets] at h1
  have hfst : (App.addExerciseToSession st e n1).activeSession =
      some { s with
              exercises := s.exercises ++
                [{ id := Nat.repr n1, name := e.name, sets := 1, reps := e.reps,
                   weight := e.weight, unit := e.unit }] } := by
    rw [h1]
  refine ⟨hfst, ?_, ?_⟩
  · have hfind2 : (s.exercises ++
        [({ id := Nat.repr n1, name := e.name, sets := 1, reps := e.reps,
            weight := e.weight, unit := e.unit } : App.Exercise)]).findIdx?
          (App.tupleMatches e) = some s.exercises.length := by
      rw [App.findIdx?_append_singleton_of_none hnomatch]
      rw [if_pos (App.tupleMatches_mkRow e (Nat.repr n1) 1)]
    have h2 := App.addExerciseToSession_with_match n2 hfst hfind2
    rw [h2]
    rw [App.modify_append_singleton]
    rfl
  · rw [List.filter_append]
    rw [List.filter_eq_nil_iff.2 (fun x hx _ => by
      rw [hnomatch x hx] at *; simp_all)]
    rw [List.filter_singleton]
    rw [App.tupleMatches_mkRow e (Nat.repr n1) 2]
    rfl

/-- State for the C7/C8 witnesses: an Active(new) session holding one
push-ups row. -/
def c7State : App.AppState :=
  { appData := { sessions := [], healthStats := [], routines := [] }
    activeSession := some activeNew40
    lastActivityTime := some 40
    editingSessionId := none }

/-- A spec whose tuple matches no row of `activeNew40`. -/
def squatSpec : App.ExerciseSpec :=
  { name := "Squat", sets := 1, reps := 5, weight := 100, unit := App.WeightUnit.kg }

theorem C7_add_exercise_merges_rows_witness :
    (App.addExerciseToSession c7State squatSpec 41).activeSession =
      some { activeNew40 with
              exercises := activeNew40.exercises ++
                [{ id := Nat.repr 41, name := squatSpec.name, sets := 1,
                   reps := squatSpec.reps, weight := squatSpec.weight,
                   unit := squatSpec.unit }] } ∧
    (App.addExerciseToSession (App.addExerciseToSession c7State squatSpec 41)
        squatSpec 42).activeSession =
      some { activeNew40 with
              exercises := activeNew40.exercises ++
                [{ id := Nat.repr 41, name := squatSpec.name, sets := 2,
                   reps := squatSpec.reps, weight := squatSpec.weight,
                   unit := squatSpec.unit }] } ∧
    ((activeNew40.exercises ++
        [({ id := Nat.repr 41, name := squatSpec.name, sets := 2,
            reps := squatSpec.reps, weight := squatSpec.weight,
            unit := squatSpec.unit } : App.Exercise)]).filter
      (App.tupleMatches squatSpec)).length = 1 :=
  C7_add_exercise_merges_rows c7State activeNew40 squatSpec 41 42 rfl
    (by decide) rfl

/-- C8: committing an Active session whose exercise list is empty is a no-op
on persisted data: the Dataset is unchanged (in particular its session
list), the empty session is discarded, and the controller returns to Idle
(no active session, no editing id). -/
theorem C8_empty_commit_is_noop
    (st : App.AppState) (a : App.WorkoutSession) (now : Nat)
    (hactive : st.activeSession = some a)
    (hempty : a.exercises = []) :
    (App.finishSession st now).appData = st.appData ∧
    (App.finishSession st now).activeSession = none ∧
    (App.finishSession st now).editingSessionId = none := by
  have h : App.finishSession st now =
      { st with activeSession := none, editingSessionId := none } := by
    unfold App.finishSession
    rw [hactive]
    simp [hempty]
  rw [h]
  exact ⟨rfl, rfl, rfl⟩

/-- State for the C8 witness: an Active session with no exercises on top of
a non-empty stored list. -/
def c8State : App.AppState :=
  { appData := { sessions := [storedSession100], healthStats := [], routines := [] }
    activeSession := some
      { id := "active", timestamp := 40, name := none, warmup := false,
        equipment := "Bodyweight", notes := "", exercises := [], durationMinutes := none }
    lastActivityTime := some 40
    editingSessionId := none }

theorem C8_empty_commit_is_noop_witness :
    (App.finishSession c8State 100).appData = c8State.appData ∧
    (App.finishSession c8State 100).activeSession = none ∧
    (App.finishSession c8State 100).editingSessionId = none :=
  C8_empty_commit_is_noop c8State
    { id := "active", timestamp := 40, name := none, warmup := false,
      equipment := "Bodyweight", notes := "", exercises := [], durationMinutes := none }
    100 rfl rfl

/-- Idle state over a stored session with id "100", used by the C9
counterexample and witness. -/
def c9State : App.AppState :=
  { appData := { sessions := [storedSession100], healthStats := [], routines := [] }
    activeSession := none
    lastActivityTime := none
    editingSessionId := none }

/-- The Active(editing) state after `editSession` and one `updateFields`
call (notes edited at time 3000). -/
def c9Edited : App.AppState :=
  App.updateActiveSession (App.editSession c9State ("100") 2000)
    { App.noSessionUpdate with notes := some "x" } 3000

/-- C9 counterexample: a session loaded via `startEditing` and then touched
by a single `updateFields` call is still Active(editing), yet the
inactivity clock is armed again (the update handler unconditionally resets
`lastActivityTime`), and once `sessionTimeout` minutes elapse the timer
fires and auto-commits the editing session: the controller drops to Idle
and the edited session is written back to the stored list. -/
theorem C9_cex_editing_session_auto_commits :
    c9Edited.editingSessionId = some ("100") ∧
    c9Edited.activeSession.map (fun s => s.id) = some ("100") ∧
    App.timerArmed c9Edited 60 = true ∧
    (App.inactivityFire c9Edited 60 3603000).activeSession = none ∧
    (App.inactivityFire c9Edited 60 3603000).appData.sessions ≠
      c9State.appData.sessions := by
  decide

/-- C9 (amended): immediately after `startEditing` loads a persisted session
the inactivity clock is disabled — `lastActivityTime` is cleared, no timer
is armed, and the timeout effect can never fire from that state — but the
clock stays disabled only until the first `updateFields` (or `addExercise`)
call: those handlers unconditionally set `lastActivityTime`, re-enabling
the inactivity auto-commit for the editing session. -/
theorem C9_amended_editing_disables_clock_until_update
    (st : App.AppState) (sid : String) (now timeout : Nat) (s : App.WorkoutSession)
    (hfound : st.appData.sessions.find? (fun x => x.id == sid) = some s) :
    (App.editSession st sid now).lastActivityTime = none ∧
    (App.editSession st sid now).editingSessionId = some sid ∧
    App.timerArmed (App.editSession st sid now) timeout = false ∧
    (∀ t, App.inactivityFire (App.editSession st sid now) timeout t =
      App.editSession st sid now) ∧
    (∀ u t2, (App.updateActiveSession (App.editSession st sid now) u t2).lastActivityTime =
      some t2) := by
  have hedit : App.editSession st sid now =
      { App.finishSession st now with
          editingSessionId := some sid
          activeSession := some s
          lastActivityTime := none } := by
    unfold App.editSession
    rw [hfound]
  refine ⟨by rw [hedit], by rw [hedit], by rw [hedit]; rfl, fun t => by rw [hedit]; rfl,
    fun u t2 => by rw [hedit]; rfl⟩

theorem C9_amended_witness :
    (App.editSession c9State ("100") 2000).lastActivityTime = none ∧
    App.timerArmed (App.editSession c9State ("100") 2000) 60 = false ∧
    App.inactivityFire (App.editSession c9State ("100") 2000) 60 99999999 =
      App.editSession c9State ("100") 2000 := by
  have h := C9_amended_editing_disables_clock_until_update c9State ("100") 2000 60
    storedSession100 (by decide)
  exact ⟨h.1, h.2.2.1, h.2.2.2.1 99999999⟩

namespace App

/-- `updateLocalProfile` with an explicit non-empty target id maps the
updater over exactly the profiles carrying that id. -/
theorem updateLocalProfile_some_ne_empty (profiles : List UserProfile)
    (apid : Option String) (updater : UserProfile → UserProfile) {pid : String}
    (hpid : pid ≠ ("")) :
    updateLocalProfile profiles apid updater (some pid) =
      profiles.map (fun q => if q.id == pid then updater q else q) := by
  unfold updateLocalProfile orFalsy
  have hbeq : (pid == ("")) = false := beq_eq_false_iff_ne.2 hpid
  simp only [hbeq, Bool.false_eq_true, if_false]

/-- The success branch of `handleOfflinePasswordReset`. -/
theorem reset_success_eq {hash : String → String} {profiles : List UserProfile}
    (apid : Option String) {username code : String} (newPassword : String)
    {p : UserProfile} {sch : String}
    (hfind : profiles.find? (fun q => App.toLowerCase q.name == App.toLowerCase username) = some p)
    (hsch : p.securityCodeHash = some sch) (hne : sch ≠ ("")) (hver : hash code = sch) :
    handleOfflinePasswordReset hash profiles apid username code newPassword =
      (true,
       updateLocalProfile profiles apid
         (fun q => { q with passwordHash := hash newPassword }) (some p.id)) := by
  unfold handleOfflinePasswordReset
  rw [hfind]
  simp only [hsch]
  have hbeq : (sch == ("")) = false := beq_eq_false_iff_ne.2 hne
  have hvb : verifyPassword hash code sch = true := by
    unfold verifyPassword
    rw [hver]
    exact beq_self_eq_true _
  simp only [hbeq, Bool.false_eq_true, if_false, hvb, if_true]

/-- Updating by id preserves every profile's name. -/
theorem find?_byName_map_update {profiles : List UserProfile} {username : String}
    {f : UserProfile → UserProfile} (hf : ∀ q, (f q).name = q.name) :
    (profiles.map f).find? (fun q => App.toLowerCase q.name == App.toLowerCase username) =
      (profiles.find? (fun q => App.toLowerCase q.name == App.toLowerCase username)).map f := by
  have hpred : ((fun q => App.toLowerCase q.name == App.toLowerCase username) ∘ f) =
      (fun q : UserProfile => App.toLowerCase q.name == App.toLowerCase username) := by
    funext q
    simp only [Function.comp_apply, hf q]
  rw [List.find?_map, hpred]

end App

/-- Profile with an *empty* id, reachable only through hand-written stored
data, exhibiting the `targetId = profileIdToUpdate || activeLocalProfileId`
fallback of `updateLocalProfile`. -/
def emptyIdProfile : App.UserProfile :=
  { id := ""
    name := "alice"
    passwordHash := String.append ("H") ("pw")
    securityCodeHash := some (String.append ("H") ("code"))
    appData := { sessions := [], healthStats := [], routines := [] }
    settings := { defaultWorkout := "Push-ups", defaultReps := 10, defaultWeight := 0,
                  defaultUnit := App.WeightUnit.kg, sessionTimeout := 60 } }

/-- C10 counterexample: with a profile whose id is the empty string (and no
active local profile id, as on the login screen), a reset with the correct
username and recovery code returns `true` yet leaves every profile
untouched — no password digest is replaced, because
`updateLocalProfile`'s falsy-id fallback bails out. -/
theorem C10_cex_reset_true_without_update :
    (App.handleOfflinePasswordReset (fun s => String.append ("H") s)
        [emptyIdProfile] none ("alice") ("code") ("npw")).fst = true ∧
    (App.handleOfflinePasswordReset (fun s => String.append ("H") s)
        [emptyIdProfile] none ("alice") ("code") ("npw")).snd = [emptyIdProfile] ∧
    emptyIdProfile.passwordHash ≠ (fun s => String.append ("H") s) ("npw") := by
  decide

/-- C10 (amended): for every profile list (with unique profile ids, the
entity invariant) and opaque digest function: a reset whose username
case-insensitively matches a stored profile *with a non-empty id* (always
true for registered profiles, whose ids come from `Date.now()`) and whose
recovery code digests to the stored (non-empty) recovery digest returns
true and rewrites exactly the matched profile's password digest — the
resulting list is the original with only that profile's `passwordHash`
replaced, so its name, recovery digest, dataset and settings survive — and
the same recovery code verifies again on the result; with an unknown
username, an absent recovery digest, or a non-matching code, the reset
returns false and the profile list is returned unchanged.  (With an empty
profile id the update's target-id fallback kicks in and nothing is
replaced; see the counterexample.) -/
theorem C10_amended_reset_password_frame
    (hash : String → String) (profiles : List App.UserProfile)
    (apid : Option String) (username code newPassword : String)
    (hids : (profiles.map (fun p => p.id)).Nodup) :
    (∀ p, profiles.find? (fun q => App.toLowerCase q.name == App.toLowerCase username) = some p →
      p.id ≠ ("") →
      ∀ sch, p.securityCodeHash = some sch → sch ≠ ("") → hash code = sch →
        (App.handleOfflinePasswordReset hash profiles apid username code newPassword).fst =
            true ∧
        (App.handleOfflinePasswordReset hash profiles apid username code newPassword).snd =
          profiles.map (fun q =>
            if q.id = p.id then { q with passwordHash := hash newPassword } else q) ∧
        (App.handleOfflinePasswordReset hash
            (App.handleOfflinePasswordReset hash profiles apid username code
              newPassword).snd
            apid username code newPassword).fst = true) ∧
    (profiles.find? (fun q => App.toLowerCase q.name == App.toLowerCase username) = none →
      App.handleOfflinePasswordReset hash profiles apid username code newPassword =
        (false, profiles)) ∧
    (∀ p, profiles.find? (fun q => App.toLowerCase q.name == App.toLowerCase username) = some p →
      p.securityCodeHash = none →
      App.handleOfflinePasswordReset hash profiles apid username code newPassword =
        (false, profiles)) ∧
    (∀ p sch, profiles.find? (fun q => App.toLowerCase q.name == App.toLowerCase username) = some p →
      p.securityCodeHash = some sch → hash code ≠ sch →
      App.handleOfflinePasswordReset hash profiles apid username code newPassword =
        (false, profiles)) := by
  refine ⟨?_, ?_, ?_, ?_⟩
  · intro p hfind hpid sch hsch hne hver
    have hmain := App.reset_success_eq apid newPassword hfind hsch hne hver
    have hupd := App.updateLocalProfile_some_ne_empty profiles apid
      (fun q => { q with passwordHash := hash newPassword }) hpid
    have hmapeq : profiles.map (fun q =>
        if q.id == p.id then { q with passwordHash := hash newPassword } else q) =
        profiles.map (fun q =>
          if q.id = p.id then { q with passwordHash := hash newPassword } else q) := by
      apply List.map_congr_left
      intro q _
      by_cases h : q.id = p.id <;> simp [h]
    refine ⟨by rw [hmain], by rw [hmain]; rw [hupd, hmapeq], ?_⟩
    -- the same recovery code still verifies on the result
    rw [hmain]
    have hname : ∀ q : App.UserProfile,
        ((fun q => if q.id = p.id then { q with passwordHash := hash newPassword } else q)
          q).name = q.name := by
      intro q
      by_cases h : q.id = p.id <;> simp [h]
    have hfind2 : ((profiles.map (fun q =>
        if q.id = p.id then { q with passwordHash := hash newPassword } else q)).find?
          (fun q => App.toLowerCase q.name == App.toLowerCase username)) =
        some (if p.id = p.id then { p with passwordHash := hash newPassword } else p) := by
      rw [App.find?_byName_map_update hname, hfind]
      rfl
    rw [if_pos rfl] at hfind2
    have hsch2 : ({ p with passwordHash := hash newPassword } :
        App.UserProfile).securityCodeHash = some sch := hsch
    rw [hupd, hmapeq]
    rw [App.reset_success_eq apid newPassword hfind2 hsch2 hne hver]
  · intro hnone
    unfold App.handleOfflinePasswordReset
    rw [hnone]
  · intro p hfind hsch
    unfold App.handleOfflinePasswordReset
    rw [hfind]
    simp only [hsch]
  · intro p sch hfind hsch hne
    unfold App.handleOfflinePasswordReset
    rw [hfind]
    simp only [hsch]
    by_cases hempty : sch = ("")
    · rw [if_pos (by simp [hempty])]
    · have hvb : App.verifyPassword hash code sch = false := by
        unfold App.verifyPassword
        exact beq_eq_false_iff_ne.2 hne
      rw [if_neg (by simp [hempty]), hvb]
      simp

/-- A registered profile (non-empty id) for the C10 witness. -/
def aliceProfile : App.UserProfile :=
  { id := "1"
    name := "Alice"
    passwordHash := "Hpw"
    securityCodeHash := some ("Hcode")
    appData := { sessions := [], healthStats := [], routines := [] }
    settings := { defaultWorkout := "Push-ups", defaultReps := 10, defaultWeight := 0,
                  defaultUnit := App.WeightUnit.kg, sessionTimeout := 60 } }

theorem C10_amended_reset_password_frame_witness :
    (App.handleOfflinePasswordReset (fun s => String.append ("H") s)
        [aliceProfile] none ("alice") ("code") ("npw")).fst = true ∧
    (App.handleOfflinePasswordReset (fun s => String.append ("H") s)
        [aliceProfile] none ("alice") ("code") ("npw")).snd =
      [aliceProfile].map (fun q =>
        if q.id = aliceProfile.id then
          { q with passwordHash := (fun s => String.append ("H") s) ("npw") }
        else q) ∧
    (App.handleOfflinePasswordReset (fun s => String.append ("H") s)
        (App.handleOfflinePasswordReset (fun s => String.append ("H") s)
          [aliceProfile] none ("alice") ("code") ("npw")).snd
        none ("alice") ("code") ("npw")).fst = true := by
  have h := C10_amended_reset_password_frame (fun s => String.append ("H") s)
    [aliceProfile] none ("alice") ("code") ("npw") (by decide)
  exact h.1 aliceProfile (by decide) (by decide) ("Hcode") (by decide) (by decide)
    (by decide)
